import Mathlib

/-!
Shallow embedding of the real-time distribution hub of `mac-dash`:
`src/server/core/log-reader.ts` (ref-counted log stream controller,
bounded log ring buffer, `getRecentLogs`), `src/server/routes/logs.ts`
(REST idle gate) and `src/server/ws/hub.ts` (connection registry,
broadcast engine, poll scheduler with change suppression).

JavaScript arrays become `List`, the module-level mutable globals become
explicit state records threaded through the functions, `JSON.stringify`
of a provider payload becomes an abstract serialization function
`α → String` supplied as a parameter, and the spawned external process
becomes a boolean "handle is held" flag (spawning is modelled as
succeeding; the repository itself never reconciles the ref count against
actual process liveness).
-/

namespace MacDash

/-! ## `src/server/core/log-reader.ts` — data model -/

/-- Embeds the `LogEntry` interface of `log-reader.ts`. -/
structure LogEntry where
  timestamp : String
  level : String
  process : String
  pid : Option Int
  message : String
  subsystem : Option String
  category : Option String
  deriving Repr, DecidableEq

/-- Embeds `MAX_BUFFER = 1000` of `log-reader.ts`. -/
def MAX_BUFFER : Nat := 1000

/-- The module-level mutable state of the stream controller in
`log-reader.ts`: `streamRefCount` (a JS number, embedded as `Int` because
the source guards against negativity with `Math.max(0, ...)`) and
`streamProcess` (embedded as the boolean "a process handle is held"). -/
structure StreamState where
  streamRefCount : Int
  streamProcess : Bool
  deriving Repr, DecidableEq

/-- Initial module state: `streamRefCount = 0`, `streamProcess = null`. -/
def initStream : StreamState := ⟨0, false⟩

/-- Embeds `startLogStream` of `log-reader.ts` (lines 96-148):
increment `streamRefCount`; if a process already runs, return;
otherwise spawn the external `log stream` process (modelled as
always succeeding). -/
def startLogStream (s : StreamState) : StreamState :=
  let s := { s with streamRefCount := s.streamRefCount + 1 }
  if s.streamProcess then s
  else { s with streamProcess := true }

/-- Embeds `stopLogStream` of `log-reader.ts` (lines 151-157):
`streamRefCount = Math.max(0, streamRefCount - 1)`; if it is now zero
and a process runs, kill it and clear the handle. -/
def stopLogStream (s : StreamState) : StreamState :=
  let s := { s with streamRefCount := max 0 (s.streamRefCount - 1) }
  if s.streamRefCount = 0 ∧ s.streamProcess then
    { s with streamProcess := false }
  else s

/-- One call at either call site (the WS hub or the REST idle gate). -/
inductive StreamOp where
  | start
  | stop
  deriving Repr, DecidableEq

/-- Run one ref-count operation. -/
def streamStep (s : StreamState) (op : StreamOp) : StreamState :=
  match op with
  | .start => startLogStream s
  | .stop => stopLogStream s

/-- Run an arbitrary interleaving of `startLogStream` / `stopLogStream`
calls from the initial module state. -/
def runStream (ops : List StreamOp) : StreamState :=
  ops.foldl streamStep initStream

/-! ## `src/server/core/log-reader.ts` — ring buffer and `getRecentLogs` -/

/-- Embeds one `logBuffer.push(entry)` followed by the overflow guard
`if (logBuffer.length > MAX_BUFFER) logBuffer = logBuffer.slice(-MAX_BUFFER)`
in `startLogStream` (lines 129-132). -/
def appendLog (buf : List LogEntry) (e : LogEntry) : List LogEntry :=
  let b := buf ++ [e]
  if MAX_BUFFER < b.length then b.drop (b.length - MAX_BUFFER) else b

/-- JavaScript `Array.prototype.slice` with one argument, for a `List`:
a negative start counts from the end (floored at 0); a non-negative
start (including `-0`, which in JS is not `< 0`) counts from the front. -/
def jsSliceFrom (l : List LogEntry) (start : Int) : List LogEntry :=
  if start < 0 then l.drop (l.length - start.natAbs)
  else l.drop (min start.natAbs l.length)

/-- Embeds `getRecentLogs(count)` of `log-reader.ts` (lines 177-179):
`logBuffer.slice(-count)`.  Note that for `count = 0` the JS index is
`-0`, which is not negative, so the whole buffer is returned. -/
def getRecentLogs (buf : List LogEntry) (count : Nat) : List LogEntry :=
  jsSliceFrom buf (-(count : Int))

/-! ## `src/server/routes/logs.ts` — REST idle gate -/

/-- The module-level mutable state of the REST lazy log stream in
`routes/logs.ts` (`restLogStreamActive`, `restIdleTimer`), combined with
the stream controller it drives.  `restIdleTimer` holds the absolute
time (ms) at which the pending timeout fires; `startCalls` observes how
many times the gate has issued `startLogStream()`. -/
structure GateState where
  restLogStreamActive : Bool
  restIdleTimer : Option Nat
  stream : StreamState
  startCalls : Nat
  deriving Repr, DecidableEq

/-- Initial gate state over an idle stream controller. -/
def initGate : GateState := ⟨false, none, initStream, 0⟩

/-- Embeds `touchRestLogStream` of `routes/logs.ts` (lines 21-34) called
at absolute time `now`: if the gate is not active, call `startLogStream`
and set the active flag; then clear any pending idle timer and arm a new
one 60000 ms from now. -/
def touchRestLogStream (now : Nat) (g : GateState) : GateState :=
  let g :=
    if ¬ g.restLogStreamActive then
      { g with stream := startLogStream g.stream
               restLogStreamActive := true
               startCalls := g.startCalls + 1 }
    else g
  { g with restIdleTimer := some (now + 60000) }

/-- Embeds the idle-timeout callback of `touchRestLogStream` (lines
28-33), which fires at the armed time: call `stopLogStream` and clear
the active flag (the timer itself is consumed). -/
def fireIdleTimer (g : GateState) : GateState :=
  { g with stream := stopLogStream g.stream
           restLogStreamActive := false
           restIdleTimer := none }

/-! ## `src/server/ws/hub.ts` — connection registry and broadcast -/

/-- Embeds a `WsClient`: an opaque identity plus the mutable
`subscriptions: Set<string>` of its `WsData` (as a list of topics). -/
structure Client where
  id : Nat
  subscriptions : List String
  deriving Repr, DecidableEq

/-- The eligibility test of `broadcast` and `hasSubscribers` in `hub.ts`:
`client.data.subscriptions.has(topic) || client.data.subscriptions.has("*")`. -/
def eligible (c : Client) (topic : String) : Bool :=
  c.subscriptions.contains topic || c.subscriptions.contains "*"

/-- Embeds `hasSubscribers` of `hub.ts` (lines 49-59): true iff some
registered client subscribes to `topic` or holds the wildcard. -/
def hasSubscribers (topic : String) (clients : List Client) : Bool :=
  clients.any (fun c => eligible c topic)

/-- The observable outcome of one `broadcast(topic, type, data)` call of
`hub.ts` (lines 26-46): the registry after the loop (send failures evict
the failing client), the clients on which `client.send` was called, and
those whose send did not throw. -/
structure BroadcastResult where
  clients : List Client
  attempted : List Client
  delivered : List Client
  deriving Repr, DecidableEq

/-- Embeds the delivery loop of `broadcast` (lines 34-45); `sendFails c`
tells whether `c.send(message)` throws.  Eligible clients are sent the
message; a throwing send deletes the client from the registry and the
loop continues with the remaining clients. -/
def broadcastRun (topic : String) (sendFails : Client → Bool) :
    List Client → BroadcastResult
  | [] => ⟨[], [], []⟩
  | c :: rest =>
    let r := broadcastRun topic sendFails rest
    if eligible c topic then
      if sendFails c then ⟨r.clients, c :: r.attempted, r.delivered⟩
      else ⟨c :: r.clients, c :: r.attempted, c :: r.delivered⟩
    else ⟨c :: r.clients, r.attempted, r.delivered⟩

/-! ## `src/server/ws/hub.ts` — poll scheduler with change suppression

Each `setInterval` closure of `startPolling` (lines 87-140) becomes a
tick function taking the current registry, the outcome of the awaited
provider call (as `Except String α`; the payload type and its
`JSON.stringify` serialization are parameters) and the topic's cached
JSON string (`lastServicesJson` / `lastProcessesJson`).  A tick returns
the new cached string, the list of `broadcast` calls it issued (topic,
kind, data) and whether the provider was invoked at all.  The provider
outcome is consulted only past the subscriber check, exactly as the
`await` only happens there in the source. -/

/-- One `broadcast(topic, kind, data)` call issued by a tick. -/
structure BroadcastCall (α : Type) where
  topic : String
  kind : String
  data : α
  deriving Repr, DecidableEq

/-- Result of one scheduler tick: new cached JSON string, the broadcast
calls issued, and whether the provider was invoked. -/
structure TickResult (α : Type) where
  cache : String
  calls : List (BroadcastCall α)
  invoked : Bool
  deriving Repr, DecidableEq

/-- Embeds the system-stats tick of `startPolling` (lines 91-99): if
nobody subscribes to `"system"`, return; otherwise fetch the stats and,
on success, broadcast them as a snapshot — there is no cached-JSON
comparison for this topic.  The (unused) cache argument keeps the same
shape as the other ticks; it is returned unchanged. -/
def systemTick (fetched : Except String α) (clients : List Client)
    (cache : String) : TickResult α :=
  if ¬ hasSubscribers "system" clients then ⟨cache, [], false⟩
  else
    match fetched with
    | .ok stats => ⟨cache, [⟨"system", "snapshot", stats⟩], true⟩
    | .error _ => ⟨cache, [], true⟩

/-- Embeds the services tick of `startPolling` (lines 105-117): if
nobody subscribes to `"services"`, return; otherwise fetch, serialize,
compare against `lastServicesJson`, and only on a difference store the
new JSON and broadcast a snapshot.  A failed fetch is caught: no cache
update, no broadcast. -/
def servicesTick (serialize : α → String) (fetched : Except String α)
    (clients : List Client) (cache : String) : TickResult α :=
  if ¬ hasSubscribers "services" clients then ⟨cache, [], false⟩
  else
    match fetched with
    | .ok services =>
      let json := serialize services
      if json ≠ cache then ⟨json, [⟨"services", "snapshot", services⟩], true⟩
      else ⟨cache, [], true⟩
    | .error _ => ⟨cache, [], true⟩

/-- Embeds the processes tick of `startPolling` (lines 122-135): if
nobody subscribes to `"processes"`, return; otherwise fetch, keep only
`processes.slice(0, 200)`, serialize the sliced list, compare against
`lastProcessesJson`, and only on a difference store the new JSON and
broadcast the sliced list as a snapshot. -/
def processesTick (serialize : List β → String)
    (fetched : Except String (List β)) (clients : List Client)
    (cache : String) : TickResult (List β) :=
  if ¬ hasSubscribers "processes" clients then ⟨cache, [], false⟩
  else
    match fetched with
    | .ok procs =>
      let sliced := procs.take 200
      let json := serialize sliced
      if json ≠ cache then ⟨json, [⟨"processes", "snapshot", sliced⟩], true⟩
      else ⟨cache, [], true⟩
    | .error _ => ⟨cache, [], true⟩

/-- A scheduler trace for one topic: at each tick, the registry at that
moment (subscriptions change between ticks through the WS handler) and
the outcome the provider would produce if invoked. -/
def runTicks (tick : Except String α → List Client → String → TickResult α)
    (cache : String) :
    List (List Client × Except String α) → String × List Bool
  | [] => (cache, [])
  | (cs, fr) :: rest =>
    let r := tick fr cs cache
    let rr := runTicks tick r.cache rest
    (rr.1, r.invoked :: rr.2)

/-! ## Concrete sample values used to instantiate theorems -/

/-- A concrete log record (the fallback shape of `parseCompactLogLine`). -/
def entry0 : LogEntry := ⟨"", "default", "system", none, "x", none, none⟩

/-- A concrete connection subscribed to the `services` topic. -/
def clientA : Client := ⟨1, ["services"]⟩

/-- A concrete connection subscribed only to the `system` topic. -/
def clientB : Client := ⟨2, ["system"]⟩

/-- A concrete connection subscribed to the `logs` topic. -/
def clientC : Client := ⟨3, ["logs"]⟩

/-- A second concrete connection subscribed to the `logs` topic. -/
def clientD : Client := ⟨4, ["logs"]⟩

/-- A concrete connection holding the wildcard subscription. -/
def clientW : Client := ⟨5, ["*"]⟩

/-! ## Theorems -/

/-- The ref-count invariant of the stream controller: the external
process handle is held exactly when the ref count is positive, and the
ref count is never negative. -/
def StreamInv (s : StreamState) : Prop :=
  (s.streamProcess = true ↔ 0 < s.streamRefCount) ∧ 0 ≤ s.streamRefCount

theorem streamStep_inv {s : StreamState} (op : StreamOp)
    (h : StreamInv s) : StreamInv (streamStep s op) := by
  obtain ⟨rc, p⟩ := s
  obtain ⟨hiff, hnn⟩ := h
  cases op with
  | start =>
    dsimp only [streamStep, startLogStream, StreamInv] at *
    split <;> rename_i hp <;> rcases p with _ | _ <;> simp_all <;> omega
  | stop =>
    dsimp only [streamStep, stopLogStream, StreamInv] at *
    rw [max_def]
    rcases p with _ | _ <;> split_ifs <;> simp_all <;> omega

theorem foldl_streamStep_inv {s : StreamState} (ops : List StreamOp)
    (h : StreamInv s) : StreamInv (ops.foldl streamStep s) := by
  induction ops generalizing s with
  | nil => exact h
  | cons op rest ih => exact ih (streamStep_inv op h)

/-- C2: at every state reachable by an arbitrary interleaving of
`startLogStream` / `stopLogStream` calls (from either call site), the
external streaming process is running iff `streamRefCount > 0`;
`startLogStream` increments the count, `stopLogStream` decrements it
floored at zero, so it never becomes negative. -/
theorem stream_refcount_invariant :
    (∀ ops : List StreamOp,
      ((runStream ops).streamProcess = true ↔ 0 < (runStream ops).streamRefCount)
        ∧ 0 ≤ (runStream ops).streamRefCount)
    ∧ (∀ s : StreamState, (startLogStream s).streamRefCount = s.streamRefCount + 1)
    ∧ (∀ s : StreamState,
        (stopLogStream s).streamRefCount = max 0 (s.streamRefCount - 1)) := by
  refine ⟨fun ops => ?_, fun s => ?_, fun s => ?_⟩
  · exact foldl_streamStep_inv ops ⟨by simp [initStream], by simp [initStream]⟩
  · simp only [startLogStream]
    split <;> rfl
  · simp only [stopLogStream]
    split <;> rfl

theorem mem_attempted_iff {topic : String} {f : Client → Bool}
    (clients : List Client) (c : Client) :
    c ∈ (broadcastRun topic f clients).attempted ↔
      c ∈ clients ∧ eligible c topic = true := by
  induction clients with
  | nil => simp [broadcastRun]
  | cons d rest ih =>
    simp only [broadcastRun]
    split <;> rename_i hd
    · split <;>
        · simp only [List.mem_cons, ih]
          constructor
          · rintro (rfl | ⟨hm, he⟩)
            · exact ⟨Or.inl rfl, hd⟩
            · exact ⟨Or.inr hm, he⟩
          · rintro ⟨rfl | hm, he⟩
            · exact Or.inl rfl
            · exact Or.inr ⟨hm, he⟩
    · simp only [List.mem_cons, ih]
      constructor
      · rintro ⟨hm, he⟩
        exact ⟨Or.inr hm, he⟩
      · rintro ⟨rfl | hm, he⟩
        · simp [he] at hd
        · exact ⟨hm, he⟩

theorem mem_delivered_iff {topic : String} {f : Client → Bool}
    (clients : List Client) (c : Client) :
    c ∈ (broadcastRun topic f clients).delivered ↔
      c ∈ clients ∧ eligible c topic = true ∧ f c = false := by
  induction clients with
  | nil => simp [broadcastRun]
  | cons d rest ih =>
    simp only [broadcastRun]
    split <;> rename_i hd
    · split <;> rename_i hf
      · simp only [ih, List.mem_cons]
        constructor
        · rintro ⟨hm, he, hnf⟩
          exact ⟨Or.inr hm, he, hnf⟩
        · rintro ⟨rfl | hm, he, hnf⟩
          · simp [hnf] at hf
          · exact ⟨hm, he, hnf⟩
      · simp only [List.mem_cons, ih]
        constructor
        · rintro (rfl | ⟨hm, he, hnf⟩)
          · exact ⟨Or.inl rfl, hd, Bool.not_eq_true _ ▸ hf⟩
          · exact ⟨Or.inr hm, he, hnf⟩
        · rintro ⟨rfl | hm, he, hnf⟩
          · exact Or.inl rfl
          · exact Or.inr ⟨hm, he, hnf⟩
    · simp only [List.mem_cons, ih]
      constructor
      · rintro ⟨hm, he, hnf⟩
        exact ⟨Or.inr hm, he, hnf⟩
      · rintro ⟨rfl | hm, he, hnf⟩
        · simp [he] at hd
        · exact ⟨hm, he, hnf⟩

theorem mem_registry_after {topic : String} {f : Client → Bool}
    (clients : List Client) (c : Client) :
    c ∈ (broadcastRun topic f clients).clients ↔
      c ∈ clients ∧ ¬(eligible c topic = true ∧ f c = true) := by
  induction clients with
  | nil => simp [broadcastRun]
  | cons d rest ih =>
    simp only [broadcastRun]
    split <;> rename_i hd
    · split <;> rename_i hf
      · simp only [ih, List.mem_cons]
        constructor
        · rintro ⟨hm, hne⟩
          exact ⟨Or.inr hm, hne⟩
        · rintro ⟨rfl | hm, hne⟩
          · exact absurd ⟨hd, hf⟩ hne
          · exact ⟨hm, hne⟩
      · simp only [List.mem_cons, ih]
        constructor
        · rintro (rfl | ⟨hm, hne⟩)
          · exact ⟨Or.inl rfl, fun h => hf h.2⟩
          · exact ⟨Or.inr hm, hne⟩
        · rintro ⟨rfl | hm, hne⟩
          · exact Or.inl rfl
          · exact Or.inr ⟨hm, hne⟩
    · simp only [List.mem_cons, ih]
      constructor
      · rintro (rfl | ⟨hm, hne⟩)
        · exact ⟨Or.inl rfl, fun h => absurd h.1 (by simp [hd])⟩
        · exact ⟨Or.inr hm, hne⟩
      · rintro ⟨rfl | hm, hne⟩
        · exact Or.inl rfl
        · exact Or.inr ⟨hm, hne⟩

/-- C3: if registered connection A subscribes to topic T and registered
connection B holds neither T nor the wildcard, then `broadcast(T, ...)`
calls `send` on A (and delivers when A's send does not throw) and never
sends to B. -/
theorem subscription_isolation (topic : String) (f : Client → Bool)
    (clients : List Client) (A B : Client)
    (hA : A ∈ clients) (_hB : B ∈ clients)
    (hAT : A.subscriptions.contains topic = true)
    (hBT : B.subscriptions.contains topic = false)
    (hBw : B.subscriptions.contains "*" = false) :
    A ∈ (broadcastRun topic f clients).attempted
    ∧ (f A = false → A ∈ (broadcastRun topic f clients).delivered)
    ∧ B ∉ (broadcastRun topic f clients).attempted
    ∧ B ∉ (broadcastRun topic f clients).delivered := by
  have heA : eligible A topic = true := by
    simp only [eligible, Bool.or_eq_true]
    exact Or.inl hAT
  have heB : eligible B topic = false := by
    simp only [eligible]
    rw [hBT, hBw]
    rfl
  refine ⟨?_, ?_, ?_, ?_⟩
  · exact (mem_attempted_iff clients A).2 ⟨hA, heA⟩
  · intro hfA
    exact (mem_delivered_iff clients A).2 ⟨hA, heA, hfA⟩
  · intro hmem
    exact absurd ((mem_attempted_iff clients B).1 hmem).2 (by simp [heB])
  · intro hmem
    exact absurd ((mem_delivered_iff clients B).1 hmem).2.1 (by simp [heB])

/-- Witness for C3 at concrete connections: `clientA` subscribes to
`services`, `clientB` only to `system`, no send throws. -/
theorem subscription_isolation_witness :
    clientA ∈ (broadcastRun "services" (fun _ => false) [clientA, clientB]).attempted
    ∧ (false = false →
        clientA ∈ (broadcastRun "services" (fun _ => false) [clientA, clientB]).delivered)
    ∧ clientB ∉ (broadcastRun "services" (fun _ => false) [clientA, clientB]).attempted
    ∧ clientB ∉ (broadcastRun "services" (fun _ => false) [clientA, clientB]).delivered :=
  subscription_isolation "services" (fun _ => false) [clientA, clientB]
    clientA clientB (by decide) (by decide) (by decide) (by decide) (by decide)

/-- C8: during a single broadcast, an eligible connection whose send
throws is removed from the registry, and every other eligible connection
whose send does not throw still receives the message. -/
theorem send_failure_eviction (topic : String) (f : Client → Bool)
    (clients : List Client) :
    (∀ c ∈ clients, eligible c topic = true → f c = true →
        c ∉ (broadcastRun topic f clients).clients)
    ∧ (∀ c ∈ clients, eligible c topic = true → f c = false →
        c ∈ (broadcastRun topic f clients).delivered) := by
  constructor
  · intro c hm he hf hmem
    exact ((mem_registry_after clients c).1 hmem).2 ⟨he, hf⟩
  · intro c hm he hf
    exact (mem_delivered_iff clients c).2 ⟨hm, he, hf⟩

/-- Witness for C8 at concrete connections: both subscribe to `logs`,
`clientC`'s send throws, `clientD`'s succeeds. -/
theorem send_failure_eviction_witness :
    clientC ∉ (broadcastRun "logs" (fun c => c.id == 3) [clientC, clientD]).clients
    ∧ clientD ∈ (broadcastRun "logs" (fun c => c.id == 3) [clientC, clientD]).delivered :=
  ⟨(send_failure_eviction "logs" (fun c => c.id == 3) [clientC, clientD]).1
      clientC (by decide) (by decide) (by decide),
   (send_failure_eviction "logs" (fun c => c.id == 3) [clientC, clientD]).2
      clientD (by decide) (by decide) (by decide)⟩

theorem systemTick_invoked {α : Type} (fr : Except String α)
    (cs : List Client) (cache : String) :
    (systemTick fr cs cache).invoked = hasSubscribers "system" cs := by
  simp only [systemTick]
  rcases h : hasSubscribers "system" cs with _ | _
  · simp [h]
  · simp only [h, not_true_eq_false, Bool.true_eq_false, if_false]
    cases fr <;> rfl

theorem servicesTick_invoked {α : Type} (serialize : α → String)
    (fr : Except String α) (cs : List Client) (cache : String) :
    (servicesTick serialize fr cs cache).invoked = hasSubscribers "services" cs := by
  simp only [servicesTick]
  rcases h : hasSubscribers "services" cs with _ | _
  · simp [h]
  · simp only [h, not_true_eq_false, Bool.true_eq_false, if_false]
    cases fr with
    | ok services => dsimp only; split <;> rfl
    | error e => rfl

theorem processesTick_invoked {β : Type} (serialize : List β → String)
    (fr : Except String (List β)) (cs : List Client) (cache : String) :
    (processesTick serialize fr cs cache).invoked = hasSubscribers "processes" cs := by
  simp only [processesTick]
  rcases h : hasSubscribers "processes" cs with _ | _
  · simp [h]
  · simp only [h, not_true_eq_false, Bool.true_eq_false, if_false]
    cases fr with
    | ok procs => dsimp only; split <;> rfl
    | error e => rfl

theorem runTicks_invocations {α : Type}
    (tick : Except String α → List Client → String → TickResult α)
    (topic : String)
    (htick : ∀ (fr : Except String α) (cs : List Client) (cache : String),
      (tick fr cs cache).invoked = hasSubscribers topic cs) :
    ∀ (trace : List (List Client × Except String α)) (cache : String),
      (runTicks tick cache trace).2
        = trace.map (fun p => hasSubscribers topic p.1) := by
  intro trace
  induction trace with
  | nil => intro cache; rfl
  | cons p rest ih =>
    intro cache
    obtain ⟨cs, fr⟩ := p
    simp only [runTicks, List.map_cons]
    rw [htick, ih]

/-- C4: over any scheduler trace in which a poll-driven topic has zero
subscribers at every tick, no tick invokes the topic's provider; as soon
as a tick finds a subscriber (wildcard included), that very tick invokes
the provider.  Stated for all three poll-driven topics. -/
theorem skip_when_idle {γ α β : Type} (serS : α → String)
    (serP : List β → String) :
    ((∀ (trace : List (List Client × Except String γ)) (cache : String),
        (∀ p ∈ trace, hasSubscribers "system" p.1 = false) →
        ∀ b ∈ (runTicks systemTick cache trace).2, b = false)
      ∧ (∀ (cs : List Client) (fr : Except String γ)
          (rest : List (List Client × Except String γ)) (cache : String),
          hasSubscribers "system" cs = true →
          (runTicks systemTick cache ((cs, fr) :: rest)).2.head? = some true))
    ∧ ((∀ (trace : List (List Client × Except String α)) (cache : String),
        (∀ p ∈ trace, hasSubscribers "services" p.1 = false) →
        ∀ b ∈ (runTicks (servicesTick serS) cache trace).2, b = false)
      ∧ (∀ (cs : List Client) (fr : Except String α)
          (rest : List (List Client × Except String α)) (cache : String),
          hasSubscribers "services" cs = true →
          (runTicks (servicesTick serS) cache ((cs, fr) :: rest)).2.head? = some true))
    ∧ ((∀ (trace : List (List Client × Except String (List β))) (cache : String),
        (∀ p ∈ trace, hasSubscribers "processes" p.1 = false) →
        ∀ b ∈ (runTicks (processesTick serP) cache trace).2, b = false)
      ∧ (∀ (cs : List Client) (fr : Except String (List β))
          (rest : List (List Client × Except String (List β))) (cache : String),
          hasSubscribers "processes" cs = true →
          (runTicks (processesTick serP) cache ((cs, fr) :: rest)).2.head? = some true)) := by
  refine ⟨⟨?_, ?_⟩, ⟨?_, ?_⟩, ⟨?_, ?_⟩⟩
  · intro trace cache hno b hb
    rw [runTicks_invocations systemTick "system" systemTick_invoked] at hb
    obtain ⟨p, hp, rfl⟩ := List.mem_map.1 hb
    exact hno p hp
  · intro cs fr rest cache hsub
    simp only [runTicks, List.head?]
    rw [systemTick_invoked, hsub]
  · intro trace cache hno b hb
    rw [runTicks_invocations (servicesTick serS) "services"
      (servicesTick_invoked serS)] at hb
    obtain ⟨p, hp, rfl⟩ := List.mem_map.1 hb
    exact hno p hp
  · intro cs fr rest cache hsub
    simp only [runTicks, List.head?]
    rw [servicesTick_invoked, hsub]
  · intro trace cache hno b hb
    rw [runTicks_invocations (processesTick serP) "processes"
      (processesTick_invoked serP)] at hb
    obtain ⟨p, hp, rfl⟩ := List.mem_map.1 hb
    exact hno p hp
  · intro cs fr rest cache hsub
    simp only [runTicks, List.head?]
    rw [processesTick_invoked, hsub]

/-- Witness for C4: a trace whose only tick has no `services` subscriber
(`clientB` holds only `system`) invokes nothing; a tick with subscriber
`clientA` invokes the provider immediately. -/
theorem skip_when_idle_witness :
    false = false
    ∧ (runTicks (servicesTick (fun _ : Unit => "s")) ""
        [([clientA], Except.ok ())]).2.head? = some true :=
  ⟨(skip_when_idle (γ := Unit) (β := Unit) (fun _ : Unit => "s")
      (fun _ => "p")).2.1.1 [([clientB], Except.ok ())] "" (by decide)
      false (by decide),
   (skip_when_idle (γ := Unit) (β := Unit) (fun _ : Unit => "s")
      (fun _ => "p")).2.1.2 [clientA] (Except.ok ()) [] "" (by decide)⟩

theorem systemTick_ok {α : Type} {cs : List Client} (v : α) (cache : String)
    (h : hasSubscribers "system" cs = true) :
    systemTick (.ok v) cs cache = ⟨cache, [⟨"system", "snapshot", v⟩], true⟩ := by
  simp [systemTick, h]

theorem systemTick_error {α : Type} {cs : List Client} (e : String) (cache : String)
    (h : hasSubscribers "system" cs = true) :
    systemTick (α := α) (.error e) cs cache = ⟨cache, [], true⟩ := by
  simp [systemTick, h]

theorem servicesTick_nosub {α : Type} (serialize : α → String)
    (fr : Except String α) (cs : List Client) (cache : String)
    (h : hasSubscribers "services" cs = false) :
    servicesTick serialize fr cs cache = ⟨cache, [], false⟩ := by
  simp [servicesTick, h]

theorem servicesTick_ok_same {α : Type} (serialize : α → String)
    {cs : List Client} (r : α) (cache : String)
    (h : hasSubscribers "services" cs = true) (hc : serialize r = cache) :
    servicesTick serialize (.ok r) cs cache = ⟨cache, [], true⟩ := by
  simp [servicesTick, h, hc]

theorem servicesTick_ok_diff {α : Type} (serialize : α → String)
    {cs : List Client} (r : α) (cache : String)
    (h : hasSubscribers "services" cs = true) (hc : serialize r ≠ cache) :
    servicesTick serialize (.ok r) cs cache
      = ⟨serialize r, [⟨"services", "snapshot", r⟩], true⟩ := by
  simp [servicesTick, h, hc]

theorem servicesTick_error {α : Type} (serialize : α → String)
    {cs : List Client} (e : String) (cache : String)
    (h : hasSubscribers "services" cs = true) :
    servicesTick serialize (.error e) cs cache = ⟨cache, [], true⟩ := by
  simp [servicesTick, h]

theorem processesTick_nosub {β : Type} (serialize : List β → String)
    (fr : Except String (List β)) (cs : List Client) (cache : String)
    (h : hasSubscribers "processes" cs = false) :
    processesTick serialize fr cs cache = ⟨cache, [], false⟩ := by
  simp [processesTick, h]

theorem processesTick_ok_same {β : Type} (serialize : List β → String)
    {cs : List Client} (l : List β) (cache : String)
    (h : hasSubscribers "processes" cs = true)
    (hc : serialize (l.take 200) = cache) :
    processesTick serialize (.ok l) cs cache = ⟨cache, [], true⟩ := by
  simp [processesTick, h, hc]

theorem processesTick_ok_diff {β : Type} (serialize : List β → String)
    {cs : List Client} (l : List β) (cache : String)
    (h : hasSubscribers "processes" cs = true)
    (hc : serialize (l.take 200) ≠ cache) :
    processesTick serialize (.ok l) cs cache
      = ⟨serialize (l.take 200), [⟨"processes", "snapshot", l.take 200⟩], true⟩ := by
  simp [processesTick, h, hc]

theorem processesTick_error {β : Type} (serialize : List β → String)
    {cs : List Client} (e : String) (cache : String)
    (h : hasSubscribers "processes" cs = true) :
    processesTick serialize (.error e) cs cache = ⟨cache, [], true⟩ := by
  simp [processesTick, h]

/-- C7: a failed provider fetch at a subscribed scheduler tick is caught
(the tick function is total and returns normally): the cached JSON keeps
its previous value, no broadcast call is issued, and — because a tick
invokes the provider exactly when the topic has subscribers, with no
backoff state — the next subscribed tick invokes the provider again.
Stated for all three poll-driven topics. -/
theorem provider_failure_handling {γ α β : Type} (serS : α → String)
    (serP : List β → String) (cs : List Client) (cache : String) (e : String) :
    (hasSubscribers "system" cs = true →
        systemTick (α := γ) (.error e) cs cache = ⟨cache, [], true⟩)
    ∧ (hasSubscribers "services" cs = true →
        servicesTick serS (.error e) cs cache = ⟨cache, [], true⟩)
    ∧ (hasSubscribers "processes" cs = true →
        processesTick serP (.error e) cs cache = ⟨cache, [], true⟩)
    ∧ (∀ (fr : Except String γ) (cs' : List Client) (cache' : String),
        (systemTick fr cs' cache').invoked = hasSubscribers "system" cs')
    ∧ (∀ (fr : Except String α) (cs' : List Client) (cache' : String),
        (servicesTick serS fr cs' cache').invoked = hasSubscribers "services" cs')
    ∧ (∀ (fr : Except String (List β)) (cs' : List Client) (cache' : String),
        (processesTick serP fr cs' cache').invoked = hasSubscribers "processes" cs') :=
  ⟨fun h => systemTick_error e cache h,
   fun h => servicesTick_error serS e cache h,
   fun h => processesTick_error serP e cache h,
   fun fr cs' cache' => systemTick_invoked fr cs' cache',
   fun fr cs' cache' => servicesTick_invoked serS fr cs' cache',
   fun fr cs' cache' => processesTick_invoked serP fr cs' cache'⟩

/-- Witness for C7 at a wildcard subscriber, an error outcome `"boom"`
and cached JSON `"old"`. -/
theorem provider_failure_handling_witness :
    servicesTick (fun _ : Unit => "s") (.error "boom") [clientW] "old"
      = ⟨"old", [], true⟩
    ∧ processesTick (fun _ : List Unit => "p") (.error "boom") [clientW] "old"
      = ⟨"old", [], true⟩ :=
  ⟨(provider_failure_handling (γ := Unit) (fun _ : Unit => "s")
      (fun _ : List Unit => "p") [clientW] "old" "boom").2.1 (by decide),
   (provider_failure_handling (γ := Unit) (fun _ : Unit => "s")
      (fun _ : List Unit => "p") [clientW] "old" "boom").2.2.1 (by decide)⟩

/-- Counterexample to C1 as stated ("for every poll-driven topic"): the
`system` tick keeps no cached payload and performs no comparison, so two
consecutive successful fetches of the identical payload `7` with a
`system` subscriber produce two broadcasts, not at most one. -/
theorem change_suppression_counterexample :
    (systemTick (α := Nat) (.ok 7) [clientB] "").calls.length
      + (systemTick (α := Nat) (.ok 7) [clientB]
          (systemTick (α := Nat) (.ok 7) [clientB] "").cache).calls.length = 2
    ∧ ¬((systemTick (α := Nat) (.ok 7) [clientB] "").calls.length
      + (systemTick (α := Nat) (.ok 7) [clientB]
          (systemTick (α := Nat) (.ok 7) [clientB] "").cache).calls.length ≤ 1) := by
  decide

/-- C1 amended: for the `services` and `processes` topics, a successful
fetch is serialized and compared against the topic's cached JSON — if
identical it is discarded with no broadcast, if different it is stored
and broadcast as a single `snapshot` — so two consecutive fetches with
identical serializations produce at most one broadcast (for `processes`
the compared serialization is that of the first 200 entries).  The
`system` topic keeps no cache and broadcasts a snapshot on every
successful subscribed tick. -/
theorem change_suppression_amended {γ α β : Type} (serS : α → String)
    (serP : List β → String) :
    (∀ (cs1 cs2 : List Client) (r1 r2 : α) (cache : String),
        serS r1 = serS r2 →
        (servicesTick serS (.ok r1) cs1 cache).calls.length
          + (servicesTick serS (.ok r2) cs2
              (servicesTick serS (.ok r1) cs1 cache).cache).calls.length ≤ 1)
    ∧ (∀ (cs : List Client) (r : α) (cache : String),
        hasSubscribers "services" cs = true →
        (serS r = cache → servicesTick serS (.ok r) cs cache = ⟨cache, [], true⟩)
        ∧ (serS r ≠ cache →
            servicesTick serS (.ok r) cs cache
              = ⟨serS r, [⟨"services", "snapshot", r⟩], true⟩))
    ∧ (∀ (cs1 cs2 : List Client) (l1 l2 : List β) (cache : String),
        serP (l1.take 200) = serP (l2.take 200) →
        (processesTick serP (.ok l1) cs1 cache).calls.length
          + (processesTick serP (.ok l2) cs2
              (processesTick serP (.ok l1) cs1 cache).cache).calls.length ≤ 1)
    ∧ (∀ (cs : List Client) (l : List β) (cache : String),
        hasSubscribers "processes" cs = true →
        (serP (l.take 200) = cache →
            processesTick serP (.ok l) cs cache = ⟨cache, [], true⟩)
        ∧ (serP (l.take 200) ≠ cache →
            processesTick serP (.ok l) cs cache
              = ⟨serP (l.take 200), [⟨"processes", "snapshot", l.take 200⟩], true⟩))
    ∧ (∀ (cs : List Client) (v : γ) (cache : String),
        hasSubscribers "system" cs = true →
        systemTick (.ok v) cs cache = ⟨cache, [⟨"system", "snapshot", v⟩], true⟩) := by
  refine ⟨?_, ?_, ?_, ?_, ?_⟩
  · intro cs1 cs2 r1 r2 cache hser
    rcases h1 : hasSubscribers "services" cs1 with _ | _
    · rw [servicesTick_nosub serS _ _ _ h1]
      rcases h2 : hasSubscribers "services" cs2 with _ | _
      · rw [servicesTick_nosub serS _ _ _ h2]
        simp
      · by_cases hc : serS r2 = cache
        · rw [servicesTick_ok_same serS _ _ h2 hc]
          simp
        · rw [servicesTick_ok_diff serS _ _ h2 hc]
          simp
    · by_cases hc : serS r1 = cache
      · rw [servicesTick_ok_same serS _ _ h1 hc]
        rcases h2 : hasSubscribers "services" cs2 with _ | _
        · rw [servicesTick_nosub serS _ _ _ h2]
          simp
        · rw [servicesTick_ok_same serS _ _ h2 (by rw [← hser]; exact hc)]
          simp
      · rw [servicesTick_ok_diff serS _ _ h1 hc]
        rcases h2 : hasSubscribers "services" cs2 with _ | _
        · rw [servicesTick_nosub serS _ _ _ h2]
          simp
        · rw [servicesTick_ok_same serS _ _ h2 hser.symm]
          simp
  · intro cs r cache h
    exact ⟨fun hc => servicesTick_ok_same serS r cache h hc,
           fun hc => servicesTick_ok_diff serS r cache h hc⟩
  · intro cs1 cs2 l1 l2 cache hser
    rcases h1 : hasSubscribers "processes" cs1 with _ | _
    · rw [processesTick_nosub serP _ _ _ h1]
      rcases h2 : hasSubscribers "processes" cs2 with _ | _
      · rw [processesTick_nosub serP _ _ _ h2]
        simp
      · by_cases hc : serP (l2.take 200) = cache
        · rw [processesTick_ok_same serP _ _ h2 hc]
          simp
        · rw [processesTick_ok_diff serP _ _ h2 hc]
          simp
    · by_cases hc : serP (l1.take 200) = cache
      · rw [processesTick_ok_same serP _ _ h1 hc]
        rcases h2 : hasSubscribers "processes" cs2 with _ | _
        · rw [processesTick_nosub serP _ _ _ h2]
          simp
        · rw [processesTick_ok_same serP _ _ h2 (by rw [← hser]; exact hc)]
          simp
      · rw [processesTick_ok_diff serP _ _ h1 hc]
        rcases h2 : hasSubscribers "processes" cs2 with _ | _
        · rw [processesTick_nosub serP _ _ _ h2]
          simp
        · rw [processesTick_ok_same serP _ _ h2 hser.symm]
          simp
  · intro cs l cache h
    exact ⟨fun hc => processesTick_ok_same serP l cache h hc,
           fun hc => processesTick_ok_diff serP l cache h hc⟩
  · intro cs v cache h
    exact systemTick_ok v cache h

/-- Witness for C1 (amended) at a concrete instance: two consecutive
`services` ticks with subscriber `clientA` and equal serializations
produce at most one broadcast in total. -/
theorem change_suppression_amended_witness :
    (servicesTick (fun _ : Unit => "s") (.ok ()) [clientA] "").calls.length
      + (servicesTick (fun _ : Unit => "s") (.ok ()) [clientA]
          (servicesTick (fun _ : Unit => "s") (.ok ()) [clientA] "").cache).calls.length
      ≤ 1 :=
  (change_suppression_amended (γ := Unit) (β := Unit) (fun _ : Unit => "s")
    (fun _ => "p")).1 [clientA] [clientA] () () "" (by decide)

/-- C5: starting from the initial gate state (no push subscriber holds
the stream, so the gate is the only ref-count holder), a `touch()` at
t=0 starts the stream and arms expiry at t=60000; firing that timer
stops the external process (and the ref count returns to 0), so the
resource is stopped at t=60000 ≥ 60000.  A second `touch()` at t=30000
replaces the pending expiry with t=90000 and, because the gate is
already active, issues no additional start call. -/
theorem idle_gate_expiry :
    (touchRestLogStream 0 initGate).restIdleTimer = some 60000
    ∧ (touchRestLogStream 0 initGate).stream.streamProcess = true
    ∧ (fireIdleTimer (touchRestLogStream 0 initGate)).stream.streamProcess = false
    ∧ (fireIdleTimer (touchRestLogStream 0 initGate)).stream.streamRefCount = 0
    ∧ (touchRestLogStream 30000 (touchRestLogStream 0 initGate)).restIdleTimer
        = some 90000
    ∧ (touchRestLogStream 0 initGate).startCalls = 1
    ∧ (touchRestLogStream 30000 (touchRestLogStream 0 initGate)).startCalls = 1 := by
  decide

/-- Counterexample to C6 as stated: `getRecentLogs` embeds
`logBuffer.slice(-count)` and the JS index `-0` is not negative, so
`k = 0` on a one-element buffer returns the whole buffer (1 record)
instead of `min(0, 1) = 0` records. -/
theorem get_recent_zero_counterexample :
    getRecentLogs [entry0] 0 = [entry0]
    ∧ ¬((getRecentLogs [entry0] 0).length
        = min 0 ([entry0] : List LogEntry).length) := by
  decide

/-- C6 amended: for every `k` with `1 ≤ k`, `getRecentLogs` returns
exactly the last `min(k, length)` buffered records in arrival order (the
suffix of the buffer); it is a pure function of the buffer alone, so it
changes no state and is independent of whether the stream controller is
running.  For `k = 0` it returns the entire buffer. -/
theorem get_recent_amended (buf : List LogEntry) (k : Nat) (hk : 1 ≤ k) :
    getRecentLogs buf k = buf.drop (buf.length - k)
    ∧ (getRecentLogs buf k).length = min k buf.length := by
  have hneg : -(k : Int) < 0 := by omega
  constructor
  · simp only [getRecentLogs, jsSliceFrom, if_pos hneg, Int.natAbs_neg,
      Int.natAbs_ofNat]
  · simp only [getRecentLogs, jsSliceFrom, if_pos hneg, Int.natAbs_neg,
      Int.natAbs_ofNat, List.length_drop]
    omega

/-- Witness for C6 (amended) at `k = 1` on a one-element buffer. -/
theorem get_recent_amended_witness :
    getRecentLogs [entry0] 1
        = ([entry0] : List LogEntry).drop (([entry0] : List LogEntry).length - 1)
    ∧ (getRecentLogs [entry0] 1).length = min 1 ([entry0] : List LogEntry).length :=
  get_recent_amended [entry0] 1 (by decide)

theorem appendLog_eq (buf : List LogEntry) (e : LogEntry) :
    appendLog buf e =
      if MAX_BUFFER < buf.length + 1 then
        (buf ++ [e]).drop (buf.length + 1 - MAX_BUFFER)
      else buf ++ [e] := by
  unfold appendLog
  simp

theorem foldl_appendLog (l : List LogEntry) :
    List.foldl appendLog [] l = l.drop (l.length - MAX_BUFFER) := by
  have hM : MAX_BUFFER = 1000 := rfl
  induction l using List.reverseRecOn with
  | nil => rfl
  | append_singleton l e ih =>
    rw [List.foldl_append, List.foldl_cons, List.foldl_nil, ih, appendLog_eq]
    have hlenapp : (l ++ [e]).length = l.length + 1 := by simp
    by_cases hlen : l.length < MAX_BUFFER
    · have h0 : l.length - MAX_BUFFER = 0 := by omega
      rw [h0, List.drop_zero, if_neg (by omega)]
      have h1 : (l ++ [e]).length - MAX_BUFFER = 0 := by omega
      rw [h1, List.drop_zero]
    · push_neg at hlen
      have hd : (l.drop (l.length - MAX_BUFFER)).length = MAX_BUFFER := by
        rw [List.length_drop]
        omega
      rw [hd, if_pos (by omega)]
      have h1 : MAX_BUFFER + 1 - MAX_BUFFER = 1 := by omega
      rw [h1, List.drop_append_of_le_length (by rw [hd]; omega),
        List.drop_drop]
      have h2 : (l ++ [e]).length - MAX_BUFFER = l.length - MAX_BUFFER + 1 := by
        omega
      rw [h2, List.drop_append_of_le_length (by omega)]

/-- C9: the log ring buffer has fixed capacity `MAX_BUFFER = 1000`:
appending `1050` records to the empty buffer leaves exactly the last
`1000` appended records, in order (the oldest 50 evicted), and a single
append never leaves the buffer longer than `1000`. -/
theorem ring_buffer_bound :
    (∀ l : List LogEntry, l.length = MAX_BUFFER + 50 →
        List.foldl appendLog [] l = l.drop 50)
    ∧ (∀ (buf : List LogEntry) (e : LogEntry),
        (appendLog buf e).length ≤ MAX_BUFFER) := by
  constructor
  · intro l hl
    rw [foldl_appendLog, hl]
    congr 1
  · intro buf e
    simp only [appendLog, List.length_append, List.length_cons, List.length_nil]
    split <;> rename_i h
    · simp only [List.length_drop, List.length_append, List.length_cons,
        List.length_nil]
      omega
    · simp only [List.length_append, List.length_cons, List.length_nil] at h ⊢
      omega

/-- Witness for C9 on the concrete buffer of 1050 copies of `entry0`. -/
theorem ring_buffer_bound_witness :
    (List.replicate (MAX_BUFFER + 50) entry0).length = MAX_BUFFER + 50
    ∧ List.foldl appendLog [] (List.replicate (MAX_BUFFER + 50) entry0)
        = (List.replicate (MAX_BUFFER + 50) entry0).drop 50 :=
  ⟨by simp, ring_buffer_bound.1 (List.replicate (MAX_BUFFER + 50) entry0) (by simp)⟩

/-- C10: every broadcast the `processes` tick issues carries exactly the
first 200 entries of the provider's list (hence at most 200 entries),
and the cached JSON after the tick is either unchanged or the
serialization of those first 200 entries — entries beyond 200 never
reach serialization, caching or broadcast. -/
theorem processes_truncation {β : Type} (serP : List β → String)
    (cs : List Client) (procs : List β) (cache : String) :
    (∀ b ∈ (processesTick serP (.ok procs) cs cache).calls,
        b.topic = "processes" ∧ b.kind = "snapshot"
        ∧ b.data = procs.take 200 ∧ b.data.length ≤ 200)
    ∧ ((processesTick serP (.ok procs) cs cache).cache = cache
        ∨ (processesTick serP (.ok procs) cs cache).cache
            = serP (procs.take 200)) := by
  have htake : (procs.take 200).length ≤ 200 := by
    simp
  rcases h : hasSubscribers "processes" cs with _ | _
  · rw [processesTick_nosub serP _ _ _ h]
    exact ⟨fun b hb => absurd hb (List.not_mem_nil b), Or.inl rfl⟩
  · by_cases hc : serP (procs.take 200) = cache
    · rw [processesTick_ok_same serP _ _ h hc]
      exact ⟨fun b hb => absurd hb (List.not_mem_nil b), Or.inl rfl⟩
    · rw [processesTick_ok_diff serP _ _ h hc]
      refine ⟨fun b hb => ?_, Or.inr rfl⟩
      rcases List.mem_singleton.1 hb with rfl
      exact ⟨rfl, rfl, rfl, htake⟩

/-- Witness for C10 at a concrete subscribed tick over the two-element
list `[0, 1]`. -/
theorem processes_truncation_witness :
    (⟨"processes", "snapshot", ([0, 1] : List Nat).take 200⟩
        : BroadcastCall (List Nat)).topic = "processes"
    ∧ (⟨"processes", "snapshot", ([0, 1] : List Nat).take 200⟩
        : BroadcastCall (List Nat)).kind = "snapshot"
    ∧ (⟨"processes", "snapshot", ([0, 1] : List Nat).take 200⟩
        : BroadcastCall (List Nat)).data = ([0, 1] : List Nat).take 200
    ∧ (⟨"processes", "snapshot", ([0, 1] : List Nat).take 200⟩
        : BroadcastCall (List Nat)).data.length ≤ 200 :=
  (processes_truncation (fun l : List Nat => toString l.length)
      [clientW] [0, 1] "").1
    ⟨"processes", "snapshot", ([0, 1] : List Nat).take 200⟩ (by decide)

end MacDash
